import Mathlib

/-
Verification of the ProtoPedia API v2 client (TypeScript) against its
natural-language specification. The definitions below are a shallow
embedding of src/client-utils.ts, src/client.ts (src/unnamed/part_012,
first document) and src/errors.ts (src/unnamed/part_009); theorems settle
the frozen claims about the serializer, header merging, timeout and
cancellation composition, error building and the error class.
-/

namespace PPClient

/-- Minimal model of JavaScript runtime values as the client manipulates them:
bodies, cancellation reasons and thrown errors. Error-like values carry a
numeric object identity `oid` so that statements about object identity can be
expressed. The only object literal the client itself constructs is the
fallback record with a single `parseError` field, modelled by the dedicated
constructor `objParseError`; JSON payloads returned by `json()` are otherwise
opaque to the client and may be any value, including `obj`. -/
inductive JSVal : Type where
  | null : JSVal
  | undefined : JSVal
  | jsBool (b : Bool) : JSVal
  | jsNum (n : Int) : JSVal
  | jsStr (s : String) : JSVal
  | obj (oid : Nat) : JSVal
  | errObj (message : String) (oid : Nat) : JSVal
  | domException (name : String) (message : String) (oid : Nat) : JSVal
  | objParseError (msg : JSVal) : JSVal
  deriving DecidableEq, Repr

/-- Model of `isAbortError` from client-utils.ts: value is a `DOMException`
whose `name` is `AbortError`. -/
def isAbortError : JSVal → Bool
  | .domException n _ _ => n == "AbortError"
  | _ => false

/-- Truth value of the JavaScript nullish test (`value == null`). -/
def isNullish : JSVal → Bool
  | .null => true
  | .undefined => true
  | _ => false

/-- The nullish coalescing operator `a ?? b`, where `none` stands for an
absent (undefined) left operand. -/
def jsCoalesce (a : Option JSVal) (b : JSVal) : JSVal :=
  match a with
  | none => b
  | some v => if isNullish v then b else v

/-- Reading `.message` of a caught value after an `as Error` cast, as in
`(readError as Error).message`; `undefined` for values without a message field. -/
def errMessage : JSVal → JSVal
  | .errObj m _ => .jsStr m
  | .domException _ m _ => .jsStr m
  | _ => .undefined

/-- JavaScript numbers, restricted to the shapes the timeout logic
distinguishes exactly: NaN, the two infinities and (rational) finite
values. -/
inductive JSNum : Type where
  | nan : JSNum
  | posInf : JSNum
  | negInf : JSNum
  | fin (q : ℚ) : JSNum
  deriving DecidableEq, Repr

/-- `Number.isFinite`. -/
def JSNum.isFinite : JSNum → Bool
  | .fin _ => true
  | _ => false

/-- The comparison `candidate >= 0` (false on NaN). -/
def JSNum.nonneg : JSNum → Bool
  | .fin q => decide (0 ≤ q)
  | .posInf => true
  | _ => false

/-- The comparison `timeoutMs > 0` (false on NaN). -/
def JSNum.pos : JSNum → Bool
  | .fin q => decide (0 < q)
  | .posInf => true
  | _ => false

/-- Template-literal rendering of a number; integral rationals print like
JavaScript integers. -/
def JSNum.render : JSNum → String
  | .nan => "NaN"
  | .posInf => "Infinity"
  | .negInf => "-Infinity"
  | .fin q => toString q

/-- Model of `toTimeout` from client-utils.ts: keep finite non-negative
candidates, otherwise fall back. -/
def toTimeout (candidate : Option JSNum) (fallback : JSNum) : JSNum :=
  match candidate with
  | some c => if c.isFinite && c.nonneg then c else fallback
  | none => fallback

/-- `DEFAULT_TIMEOUT_MS` from client.ts. -/
def DEFAULT_TIMEOUT_MS : JSNum := .fin 15000

/-- The timeout value the client constructor stores:
`toTimeout(options.timeoutMs, DEFAULT_TIMEOUT_MS)`. -/
def clientTimeout (timeoutMs : Option JSNum) : JSNum :=
  toTimeout timeoutMs DEFAULT_TIMEOUT_MS

/-- Model of `createTimeoutError` from client-utils.ts: a `DOMException`
named `TimeoutError` whose message names the duration in milliseconds. -/
def createTimeoutError (timeoutMs : JSNum) : JSVal :=
  .domException "TimeoutError"
    ("Request timed out after " ++ timeoutMs.render ++ " ms") 0

/-- Runtime values acceptable to the serializer helper `put`
(string, number or boolean; absence is modelled with `Option`). -/
inductive ParamValue : Type where
  | pStr (s : String)
  | pNum (n : Int)
  | pBool (b : Bool)
  deriving DecidableEq, Repr

/-- Default JavaScript stringification `String(value)` of a serializer
value. -/
def renderParam : ParamValue → String
  | .pStr s => s
  | .pNum n => toString n
  | .pBool b => if b then "true" else "false"

/-- `URLSearchParams.set`: replace the value of the first pair carrying the
name and drop any further pairs with that name; append when the name is
absent. -/
def searchSet : List (String × String) → String → String → List (String × String)
  | [], key, value => [(key, value)]
  | (k, v) :: rest, key, value =>
    if k = key then (key, value) :: rest.filter (fun kv => kv.1 ≠ key)
    else (k, v) :: searchSet rest key value

/-- `URLSearchParams.get`: value of the first pair carrying the name. -/
def searchGet (search : List (String × String)) (key : String) : Option String :=
  (search.find? (fun kv => kv.1 = key)).map (fun kv => kv.2)

/-- The helper `put` inside `serializeListPrototypeParams`: nullish values are
skipped, booleans render as the literal strings, all other values are
stringified with `String(value)`. -/
def put (search : List (String × String)) (key : String) (value : Option ParamValue) :
    List (String × String) :=
  match value with
  | none => search
  | some (.pBool b) => searchSet search key (if b then "true" else "false")
  | some v => searchSet search key (renderParam v)

/-- The optional filter fields of `ListPrototypesParams`, in declaration
order. The static TypeScript types are string or number valued, but the
serializer accepts the full runtime union of `put`, so fields carry
`ParamValue`. -/
structure ListPrototypesParams where
  userNm : Option ParamValue := none
  materialNm : Option ParamValue := none
  tagNm : Option ParamValue := none
  eventNm : Option ParamValue := none
  eventId : Option ParamValue := none
  awardNm : Option ParamValue := none
  prototypeId : Option ParamValue := none
  status : Option ParamValue := none
  limit : Option ParamValue := none
  offset : Option ParamValue := none
  deriving DecidableEq, Repr

/-- Model of `serializeListPrototypeParams` from client-utils.ts: ten `put`
calls in source order on an initially empty collection. -/
def serializeListPrototypeParams : Option ListPrototypesParams → List (String × String)
  | none => []
  | some params =>
    let s : List (String × String) := []
    let s := put s "userNm" params.userNm
    let s := put s "materialNm" params.materialNm
    let s := put s "tagNm" params.tagNm
    let s := put s "eventNm" params.eventNm
    let s := put s "eventId" params.eventId
    let s := put s "awardNm" params.awardNm
    let s := put s "prototypeId" params.prototypeId
    let s := put s "status" params.status
    let s := put s "limit" params.limit
    let s := put s "offset" params.offset
    s

/-- The ten query keys with the field values they serialize, in the order the
source issues its `put` calls. -/
def fieldAssoc (p : ListPrototypesParams) : List (String × Option ParamValue) :=
  [("userNm", p.userNm), ("materialNm", p.materialNm), ("tagNm", p.tagNm),
   ("eventNm", p.eventNm), ("eventId", p.eventId), ("awardNm", p.awardNm),
   ("prototypeId", p.prototypeId), ("status", p.status),
   ("limit", p.limit), ("offset", p.offset)]

/-- Rendering of one field entry: absent fields disappear, present fields
keep their key with the stringified value. -/
def renderField (kv : String × Option ParamValue) : Option (String × String) :=
  kv.2.map (fun v => (kv.1, renderParam v))

example :
    serializeListPrototypeParams (some { tagNm := some (.pStr "vr") }) =
      [("tagNm", "vr")] := by decide

example :
    serializeListPrototypeParams (some { limit := some (.pNum 0), tagNm := some (.pStr "") }) =
      [("tagNm", ""), ("limit", "0")] := by decide

/-- Substring test on character lists, used to model
`String.prototype.includes`. -/
def charsContainSub (sub : List Char) : List Char → Bool
  | [] => sub.isEmpty
  | c :: t => sub.isPrefixOf (c :: t) || charsContainSub sub t

/-- `haystack.includes(needle)` on strings. -/
def strIncludes (haystack needle : String) : Bool :=
  charsContainSub needle.toList haystack.toList

/-- ASCII lowercasing of one character, as the fetch header-name
normalization and `toLowerCase` perform on the ASCII names and content types
the client handles. -/
def lowerChar (c : Char) : Char :=
  if 65 ≤ c.toNat ∧ c.toNat ≤ 90 then Char.ofNat (c.toNat + 32) else c

/-- ASCII lowercasing of a string. -/
def asciiLower (s : String) : String := String.mk (s.data.map lowerChar)

/-- `Headers.append`: names are already lowercased by the caller; when the
name is present the values are combined with a comma, otherwise the pair is
appended. -/
def headersAppend (h : List (String × String)) (k v : String) : List (String × String) :=
  if h.any (fun kv => kv.1 = k) then
    h.map (fun kv => if kv.1 = k then (kv.1, kv.2 ++ ", " ++ v) else kv)
  else h ++ [(k, v)]

/-- `new Headers(source)` for a record source: each entry is appended under
its lowercased name. -/
def headersFromInit (src : List (String × String)) : List (String × String) :=
  src.foldl (fun acc kv => headersAppend acc (asciiLower kv.1) kv.2) []

/-- `Headers.set` with a name that is already lowercased. -/
def headersSet (h : List (String × String)) (k v : String) : List (String × String) :=
  searchSet h k v

/-- `Headers.get`: case-insensitive lookup, names stored lowercased. -/
def headersGet (h : List (String × String)) (name : String) : Option String :=
  searchGet h (asciiLower name)

/-- The loop body of `mergeHeaders`: every entry of one source is `set` onto
the accumulated headers, so the source overrides earlier values name by
name. -/
def mergeOne (acc : List (String × String)) (src : Option (List (String × String))) :
    List (String × String) :=
  match src with
  | none => acc
  | some s => (headersFromInit s).foldl (fun a kv => headersSet a kv.1 kv.2) acc

/-- Model of `mergeHeaders` from client-utils.ts: fold the sources in order
into an initially empty `Headers` object. -/
def mergeHeaders (sources : List (Option (List (String × String)))) : List (String × String) :=
  sources.foldl mergeOne []

/-- Model of `headersToPlainObject`: the headers are already a collection of
lowercased names with their values, so the plain object carries the same
entries. -/
def headersToPlainObject (h : List (String × String)) : List (String × String) := h

/-- Model of `trimTrailingSlash` from client-utils.ts. -/
def trimTrailingSlash (value : String) : String :=
  if value.endsWith "/" then value.dropRight 1 else value

/-- The query loop of `ProtoPediaApiClient.buildUrl`: every pair whose value
is the empty string is dropped, every other pair is set onto the (initially
empty) search parameters of the URL. -/
def buildUrlQuery (query : List (String × String)) : List (String × String) :=
  query.foldl (fun acc kv => if kv.2 ≠ "" then searchSet acc kv.1 kv.2 else acc) []

/-- Request information stored on an API error (errors.ts). -/
structure ReqInfo where
  method : String
  url : String
  deriving DecidableEq, Repr

/-- The options bag of the `ProtoPediaApiError` constructor (errors.ts);
`none` on `body` and `headers` models an absent (undefined) property. -/
structure ApiErrorOptions where
  message : String
  req : ReqInfo
  status : Nat
  statusText : String
  body : Option JSVal := none
  headers : Option (List (String × String)) := none
  cause : Option JSVal := none
  deriving DecidableEq, Repr

/-- The constructed `ProtoPediaApiError` with its public fields. -/
structure ApiError where
  name : String
  message : String
  req : ReqInfo
  status : Nat
  statusText : String
  body : JSVal
  headers : List (String × String)
  cause : Option JSVal
  deriving DecidableEq, Repr

/-- The `ProtoPediaApiError` constructor: the name is fixed, the request
information is copied, `body` is `options.body ?? null`, and the headers are
copied into a fresh snapshot by the object spread. -/
def mkApiError (o : ApiErrorOptions) : ApiError :=
  { name := "ProtoPediaApiError"
    message := o.message
    req := o.req
    status := o.status
    statusText := o.statusText
    body := jsCoalesce o.body .null
    headers := o.headers.getD []
    cause := o.cause }

/-- A heap of plain record objects holding header maps; the index of an entry
is its object identity, allocation appends. Used to state the aliasing
behaviour of the error constructor. -/
abbrev ObjHeap := List (List (String × String))

/-- Allocate a fresh record with the given entries. -/
def heapAlloc (h : ObjHeap) (entries : List (String × String)) : ObjHeap × Nat :=
  (h ++ [entries], h.length)

/-- Read the entries of the record at an object identity. -/
def heapRead (h : ObjHeap) (oid : Nat) : List (String × String) :=
  h.getD oid []

/-- Mutate the record at an object identity in place. -/
def heapWrite (h : ObjHeap) (oid : Nat) (entries : List (String × String)) : ObjHeap :=
  h.set oid entries

/-- Constructor options where the caller passes its headers by reference. -/
structure ApiErrorOptionsH where
  message : String
  req : ReqInfo
  status : Nat
  statusText : String
  body : Option JSVal := none
  headersOid : Option Nat := none
  deriving DecidableEq, Repr

/-- A constructed error whose headers snapshot lives at its own object
identity. -/
structure ApiErrorH where
  name : String
  message : String
  req : ReqInfo
  status : Nat
  statusText : String
  body : JSVal
  headersOid : Nat
  deriving DecidableEq, Repr

/-- Heap-level model of the `ProtoPediaApiError` constructor line
`this.headers = ...options.headers` (object spread): a fresh record is
allocated and the entries of the source record are copied into it at
construction time. -/
def mkApiErrorH (h : ObjHeap) (o : ApiErrorOptionsH) : ApiErrorH × ObjHeap :=
  let src := match o.headersOid with
    | some i => heapRead h i
    | none => []
  let alloc := heapAlloc h src
  ({ name := "ProtoPediaApiError"
     message := o.message
     req := o.req
     status := o.status
     statusText := o.statusText
     body := jsCoalesce o.body .null
     headersOid := alloc.2 }, alloc.1)

/-- Decidable equality for `Except`, needed to evaluate concrete runs. -/
instance {ε α : Type} [DecidableEq ε] [DecidableEq α] : DecidableEq (Except ε α) :=
  fun x y =>
    match x, y with
    | .ok a, .ok b =>
      if h : a = b then isTrue (by rw [h]) else isFalse (by intro hc; cases hc; exact h rfl)
    | .error a, .error b =>
      if h : a = b then isTrue (by rw [h]) else isFalse (by intro hc; cases hc; exact h rfl)
    | .ok _, .error _ => isFalse (by intro hc; cases hc)
    | .error _, .ok _ => isFalse (by intro hc; cases hc)

/-- The first-read behaviour of a response body: what `json()` and `text()`
return when called on an unconsumed body. Failures carry the rejection
value. -/
structure BodyBehavior where
  jsonB : Except JSVal JSVal
  textB : Except JSVal String
  deriving DecidableEq, Repr

/-- A `Response`-like value as the client consumes it. `strict` is true for
real fetch responses, whose body stream can be read at most once; it is false
for the minimal duck-typed response objects the code explicitly supports,
whose `json`/`text` methods are independent of any consumption state. -/
structure Resp where
  status : Nat
  statusText : String
  url : String
  headers : List (String × String)
  body : BodyBehavior
  strict : Bool
  bodyUsed : Bool
  deriving DecidableEq, Repr

/-- `response.ok`: status in the 2xx range. -/
def respOk (r : Resp) : Bool :=
  decide (200 ≤ r.status) && decide (r.status ≤ 299)

/-- The rejection raised when a consumed body is read again. -/
def bodyConsumedError : JSVal :=
  .errObj "Body has already been read" 900

/-- `response.json()`: on a strict response a consumed body rejects and any
read consumes the body; on a duck-typed response the behaviour is
unconditional. -/
def readJson (r : Resp) : Except JSVal JSVal × Resp :=
  if r.strict && r.bodyUsed then (.error bodyConsumedError, r)
  else (r.body.jsonB, { r with bodyUsed := true })

/-- `response.text()`, with the same consumption rules as `readJson`. -/
def readText (r : Resp) : Except JSVal String × Resp :=
  if r.strict && r.bodyUsed then (.error bodyConsumedError, r)
  else (r.body.textB, { r with bodyUsed := true })

/-- `response.clone()`: a duplicate with its own body state, so consuming the
copy leaves the original readable. -/
def cloneResp (r : Resp) : Resp := r

/-- `response.headers.get(content-type)?.toLowerCase() ?? empty`. -/
def contentTypeOf (r : Resp) : String :=
  asciiLower ((headersGet r.headers "content-type").getD "")

/-- The body-extraction algorithm of `buildError` in client.ts: when the
content type hints JSON, parse a clone as JSON first and fall back to reading
the original as text, and on a further failure to a record carrying the text
failure message; otherwise read text first, retry JSON on the original as a
last resort, and fall back to a record carrying the text failure message. -/
def buildErrorBody (r : Resp) : JSVal :=
  if strIncludes (contentTypeOf r) "application/json" then
    match (readJson (cloneResp r)).1 with
    | .ok v => v
    | .error _ =>
      match (readText r).1 with
      | .ok t => .jsStr t
      | .error readError => .objParseError (errMessage readError)
  else
    match readText r with
    | (.ok t, _) => .jsStr t
    | (.error textError, r1) =>
      match (readJson r1).1 with
      | .ok v => v
      | .error _ => .objParseError (errMessage textError)

/-- Model of `buildError` from client.ts: extract the best-effort body and
wrap the response data in the uniform error type. -/
def buildError (r : Resp) (method : String) : ApiError :=
  mkApiError
    { message := "API request failed"
      req := { method := method, url := r.url }
      status := r.status
      statusText := r.statusText
      headers := some (headersToPlainObject r.headers)
      body := some (buildErrorBody r) }

/-- Values thrown or rejected inside a call: either the typed API error or
an arbitrary JavaScript value. -/
inductive Thrown : Type where
  | api (e : ApiError)
  | js (v : JSVal)
  deriving DecidableEq, Repr

/-- Whether an outcome failed with the typed API error. -/
def isApiThrow : Except Thrown JSVal → Bool
  | .error (.api _) => true
  | _ => false

/-- Model of `parseJson` from client.ts, on a response already accepted as
successful: try `json()`; on failure read `text()` (this read is not guarded,
so its own failure propagates as is) and throw the decode error carrying the
original status, headers and the recovered text. -/
def parseJsonRun (r : Resp) (method context : String) : Except Thrown JSVal :=
  match readJson r with
  | (.ok v, _) => .ok v
  | (.error jsonErr, r1) =>
    match (readText r1).1 with
    | .ok t =>
      .error (.api (mkApiError
        { message := "Failed to parse " ++ context ++ " response as JSON"
          req := { method := method, url := r.url }
          status := r.status
          statusText := r.statusText
          headers := some (headersToPlainObject r.headers)
          body := some (.jsStr t)
          cause := some jsonErr }))
    | .error textErr => .error (.js textErr)

/-- A caller-supplied cancellation token (`AbortSignal`): whether it is in
the cancelled state and its cancellation reason. -/
structure ExtSignal where
  aborted : Bool
  reason : Option JSVal := none
  deriving DecidableEq, Repr

/-- The state owned by one call after `createAbortSignal`: whether the
internal timer is pending, whether a listener is attached to the external
token, and the state of the composed signal. -/
structure SignalState where
  timerPending : Bool
  listenerAttached : Bool
  composedAborted : Bool
  composedReason : Option JSVal
  deriving DecidableEq, Repr

/-- Model of `ProtoPediaApiClient.createAbortSignal`: start a timer only for
a finite positive timeout; with a pre-cancelled external token, cancel the
composed signal immediately with the token reason and attach no listener;
otherwise attach a listener that forwards the token reason. -/
def createAbortSignal (timeoutMs : JSNum) (ext : Option ExtSignal) : SignalState :=
  let timer := timeoutMs.isFinite && timeoutMs.pos
  match ext with
  | none =>
    { timerPending := timer, listenerAttached := false
      composedAborted := false, composedReason := none }
  | some s =>
    if s.aborted then
      { timerPending := timer, listenerAttached := false
        composedAborted := true, composedReason := s.reason }
    else
      { timerPending := timer, listenerAttached := true
        composedAborted := false, composedReason := none }

/-- The `cleanup` closure returned by `createAbortSignal`: the timer is
cleared and the listener detached. -/
def cleanupState (st : SignalState) : SignalState :=
  { st with timerPending := false, listenerAttached := false }

/-- The timer callback firing: when the timer is still pending and the
composed controller has not yet aborted, abort with the timeout error for the
configured duration. -/
def timerFire (st : SignalState) (timeoutMs : JSNum) : SignalState :=
  if st.timerPending && !st.composedAborted then
    { st with composedAborted := true
              composedReason := some (createTimeoutError timeoutMs) }
  else st

/-- The external token firing after the call: only an attached listener can
forward the abort into the composed controller. -/
def fireExtAbort (st : SignalState) (reason : Option JSVal) : SignalState :=
  if st.listenerAttached && !st.composedAborted then
    { st with composedAborted := true, composedReason := reason }
  else st

/-- What the promise returned by the supplied fetch function does. -/
inductive FetchOutcome : Type where
  | resolve (r : Resp)
  | reject (e : Thrown)
  deriving DecidableEq, Repr

/-- The environment of one `execute` call: whether the debug log call issued
before the network call throws (caller-supplied loggers may), and the
behaviour of the fetch promise. -/
structure ExecEnv where
  preFetchThrow : Option JSVal := none
  fetchOutcome : FetchOutcome
  deriving DecidableEq, Repr

/-- The `catch` clause of `execute`: a typed API error is rethrown as is;
an abort-class error while the caller token is cancelled is replaced with
`requestOptions.signal.reason ?? error`; everything else is rethrown
unchanged. -/
def catchClause (ext : Option ExtSignal) (e : Thrown) : Thrown :=
  match e with
  | .api a => .api a
  | .js v =>
    match ext with
    | some s =>
      if isAbortError v && s.aborted then .js (jsCoalesce s.reason v)
      else .js v
    | none => .js v

/-- The observable result of one `execute` call. -/
structure ExecResult where
  fetchInvoked : Bool
  outcome : Except Thrown Resp
  finalSignal : SignalState
  deriving DecidableEq, Repr

/-- Model of `ProtoPediaApiClient.execute`: compose the signal, invoke fetch
(unconditionally, unless the pre-fetch debug log throws), convert a non-2xx
response through `buildError`, run the `catch` clause on any rejection, and
run `cleanup` on every exit path (the `finally` block). -/
def execute (timeoutMs : JSNum) (ext : Option ExtSignal) (env : ExecEnv) : ExecResult :=
  let st := createAbortSignal timeoutMs ext
  let step : Bool × Except Thrown Resp :=
    match env.preFetchThrow with
    | some v => (false, .error (catchClause ext (.js v)))
    | none =>
      match env.fetchOutcome with
      | .resolve r =>
        if respOk r then (true, .ok r)
        else (true, .error (catchClause ext (.api (buildError r "GET"))))
      | .reject e => (true, .error (catchClause ext e))
  { fetchInvoked := step.1
    outcome := step.2
    finalSignal := cleanupState st }

/-- Model of `listPrototypes` past URL construction: run `execute` and decode
the successful response with `parseJson` under the operation name. -/
def listPrototypesRun (timeoutMs : JSNum) (ext : Option ExtSignal) (env : ExecEnv) :
    Except Thrown JSVal :=
  match (execute timeoutMs ext env).outcome with
  | .error e => .error e
  | .ok r => parseJsonRun r "GET" "listPrototype"

/-- Definition of the body-extraction strategy taken literally from the
specification wording, for comparison with `buildErrorBody`: JSON on a clone
when the content type hints JSON, then text, then JSON as a last resort, and
finally a minimal record carrying the message of the last failure. -/
def buildErrorBodySpec (r : Resp) : JSVal :=
  if strIncludes (contentTypeOf r) "application/json" then
    match (readJson (cloneResp r)).1 with
    | .ok v => v
    | .error _ =>
      match readText r with
      | (.ok t, _) => .jsStr t
      | (.error _, r1) =>
        match (readJson r1).1 with
        | .ok v => v
        | .error lastErr => .objParseError (errMessage lastErr)
  else
    match readText r with
    | (.ok t, _) => .jsStr t
    | (.error _, r1) =>
      match (readJson r1).1 with
      | .ok v => v
      | .error lastErr => .objParseError (errMessage lastErr)

theorem find?_congr_pred {α : Type} (l : List α) (p q : α → Bool)
    (h : ∀ a ∈ l, p a = q a) : l.find? p = l.find? q := by
  induction l with
  | nil => rfl
  | cons a l ih =>
    have ha := h a (List.mem_cons_self a l)
    by_cases hp : p a = true
    · rw [List.find?_cons_of_pos _ hp, List.find?_cons_of_pos _ (ha ▸ hp)]
    · rw [List.find?_cons_of_neg _ hp, List.find?_cons_of_neg _ (fun hc => hp (ha ▸ hc))]
      exact ih (fun a ha => h a (List.mem_cons_of_mem _ ha))

theorem find?_filter_key_ne (rest : List (String × String)) (k n : String) (h : n ≠ k) :
    (rest.filter (fun kv => kv.1 ≠ k)).find? (fun kv => kv.1 = n) =
      rest.find? (fun kv => kv.1 = n) := by
  rw [List.find?_filter]
  apply find?_congr_pred
  intro a _
  by_cases ha : a.1 = n
  · have hak : ¬ (a.1 = k) := by rw [ha]; exact h
    simp [ha, hak, h]
  · simp [ha]

theorem find?_searchSet (h : List (String × String)) (k v n : String) :
    (searchSet h k v).find? (fun kv => kv.1 = n) =
      if n = k then some (k, v) else h.find? (fun kv => kv.1 = n) := by
  induction h with
  | nil =>
    by_cases hn : n = k
    · simp [searchSet, hn]
    · have hkn : ¬ (k = n) := fun hc => hn hc.symm
      simp [searchSet, hn, hkn]
  | cons kv rest ih =>
    by_cases hk : kv.1 = k
    · rw [searchSet]
      rw [if_pos hk]
      by_cases hn : n = k
      · rw [if_pos hn]
        exact List.find?_cons_of_pos _ (by simp [hn])
      · rw [if_neg hn]
        rw [List.find?_cons_of_neg _ (by simp; exact fun hc => hn hc.symm)]
        rw [find?_filter_key_ne rest k n hn]
        rw [List.find?_cons_of_neg _ (by simp [hk]; exact fun hc => hn hc.symm)]
    · rw [searchSet]
      rw [if_neg hk]
      by_cases hkvn : kv.1 = n
      · rw [List.find?_cons_of_pos _ (by simp [hkvn])]
        have hn : ¬ (n = k) := by rw [← hkvn]; exact fun hc => hk hc
        rw [if_neg hn]
        rw [List.find?_cons_of_pos _ (by simp [hkvn])]
      · rw [List.find?_cons_of_neg _ (by simp [hkvn])]
        rw [ih]
        by_cases hn : n = k
        · rw [if_pos hn, if_pos hn]
        · rw [if_neg hn, if_neg hn]
          rw [List.find?_cons_of_neg _ (by simp [hkvn])]

theorem searchGet_searchSet (h : List (String × String)) (k v n : String) :
    searchGet (searchSet h k v) n = if n = k then some v else searchGet h n := by
  unfold searchGet
  rw [find?_searchSet]
  by_cases hn : n = k
  · rw [if_pos hn, if_pos hn]
    rfl
  · rw [if_neg hn, if_neg hn]

theorem searchSet_of_not_mem (h : List (String × String)) (k v : String)
    (hk : k ∉ h.map Prod.fst) :
    searchSet h k v = h ++ [(k, v)] := by
  induction h with
  | nil => rfl
  | cons kv rest ih =>
    simp only [List.map_cons, List.mem_cons] at hk
    push_neg at hk
    have hne : ¬ (kv.1 = k) := fun hc => hk.1 hc.symm
    rw [searchSet, if_neg hne, ih hk.2]
    rfl

theorem searchGet_of_not_mem (h : List (String × String)) (k : String)
    (hk : k ∉ h.map Prod.fst) :
    searchGet h k = none := by
  unfold searchGet
  have : h.find? (fun kv => kv.1 = k) = none := by
    rw [List.find?_eq_none]
    intro x hx
    simp only [decide_eq_true_eq]
    intro hc
    exact hk (hc ▸ List.mem_map_of_mem Prod.fst hx)
  rw [this]
  rfl

theorem searchGet_of_mem_nodup (h : List (String × String)) (k v : String)
    (hnd : (h.map Prod.fst).Nodup) (hmem : (k, v) ∈ h) :
    searchGet h k = some v := by
  induction h with
  | nil => cases hmem
  | cons kv rest ih =>
    simp only [List.map_cons, List.nodup_cons] at hnd
    rcases List.mem_cons.1 hmem with heq | htail
    · rw [← heq]
      unfold searchGet
      rw [List.find?_cons_of_pos _ (by simp)]
      rfl
    · have hne : ¬ (kv.1 = k) := by
        intro hc
        exact hnd.1 (by rw [hc]; exact List.mem_map_of_mem Prod.fst htail)
      unfold searchGet
      rw [List.find?_cons_of_neg _ (by simp [hne])]
      have := ih hnd.2 htail
      unfold searchGet at this
      exact this

theorem value_eq_of_mem_nodup (h : List (String × String)) (k a b : String)
    (hnd : (h.map Prod.fst).Nodup) (ha : (k, a) ∈ h) (hb : (k, b) ∈ h) :
    a = b := by
  have h1 := searchGet_of_mem_nodup h k a hnd ha
  have h2 := searchGet_of_mem_nodup h k b hnd hb
  rw [h1] at h2
  exact Option.some_inj.1 h2

/-- In an association list with pairwise distinct keys, a key determines its
associated entry. -/
theorem assoc_snd_eq_of_mem_nodup {β : Type} (l : List (String × β)) (k : String)
    (a b : β) (hnd : (l.map Prod.fst).Nodup) (ha : (k, a) ∈ l) (hb : (k, b) ∈ l) :
    a = b := by
  induction l with
  | nil => cases ha
  | cons kv rest ih =>
    obtain ⟨k0, v0⟩ := kv
    simp only [List.map_cons, List.nodup_cons] at hnd
    rcases List.mem_cons.1 ha with haeq | hatail
    · cases haeq
      rcases List.mem_cons.1 hb with hbeq | hbtail
      · injection hbeq with h1 h2
        exact h2.symm
      · exact absurd (List.mem_map_of_mem Prod.fst hbtail) hnd.1
    · rcases List.mem_cons.1 hb with hbeq | hbtail
      · cases hbeq
        exact absurd (List.mem_map_of_mem Prod.fst hatail) hnd.1
      · exact ih hnd.2 hatail hbtail

/-- Every present value flows through `searchSet` with its rendered
string. -/
theorem put_some (s : List (String × String)) (k : String) (v : ParamValue) :
    put s k (some v) = searchSet s k (renderParam v) := by
  cases v <;> rfl

/-- Folding `put` over fields with fresh, pairwise distinct keys appends the
rendering of every present field in order. -/
theorem foldl_put_eq (fields : List (String × Option ParamValue)) :
    ∀ acc : List (String × String),
      (∀ kv ∈ fields, kv.1 ∉ acc.map Prod.fst) →
      (fields.map Prod.fst).Nodup →
      List.foldl (fun a kv => put a kv.1 kv.2) acc fields =
        acc ++ fields.filterMap renderField := by
  induction fields with
  | nil => intro acc _ _; simp
  | cons kv fs ih =>
    intro acc hfresh hnd
    simp only [List.map_cons, List.nodup_cons] at hnd
    obtain ⟨k, ov⟩ := kv
    cases ov with
    | none =>
      have hstep : put acc k none = acc := rfl
      simp only [List.foldl_cons, hstep]
      rw [ih acc (fun kv hkv => hfresh kv (List.mem_cons_of_mem _ hkv)) hnd.2]
      simp [renderField]
    | some v =>
      have hk : k ∉ acc.map Prod.fst := hfresh (k, some v) (List.mem_cons_self _ _)
      have hstep : put acc k (some v) = acc ++ [(k, renderParam v)] := by
        rw [put_some, searchSet_of_not_mem acc k (renderParam v) hk]
      simp only [List.foldl_cons, hstep]
      rw [ih (acc ++ [(k, renderParam v)])]
      · simp [renderField]
      · intro kv hkv
        simp only [List.map_append, List.mem_append, List.map_cons]
        push_neg
        constructor
        · exact hfresh kv (List.mem_cons_of_mem _ hkv)
        · have : kv.1 ∈ fs.map Prod.fst := List.mem_map_of_mem Prod.fst hkv
          simp only [List.map_nil]
          intro hc
          rcases List.mem_cons.1 hc with hc1 | hc2
          · exact hnd.1 (hc1 ▸ this)
          · cases hc2
      · exact hnd.2

/-- The keys of the ten fields are pairwise distinct. -/
theorem fieldAssoc_keys_nodup (p : ListPrototypesParams) :
    ((fieldAssoc p).map Prod.fst).Nodup := by
  simp only [fieldAssoc, List.map_cons, List.map_nil]
  decide

/-- Characterization of the serializer: it emits exactly the present fields,
in the fixed source order, with rendered values. -/
theorem serialize_eq_filterMap (p : ListPrototypesParams) :
    serializeListPrototypeParams (some p) = (fieldAssoc p).filterMap renderField := by
  have h0 : serializeListPrototypeParams (some p) =
      List.foldl (fun a kv => put a kv.1 kv.2) [] (fieldAssoc p) := rfl
  rw [h0, foldl_put_eq (fieldAssoc p) [] (by simp) (fieldAssoc_keys_nodup p)]
  rfl

theorem keys_filterMap_sublist (fields : List (String × Option ParamValue)) :
    ((fields.filterMap renderField).map Prod.fst).Sublist (fields.map Prod.fst) := by
  induction fields with
  | nil => simp
  | cons kv fs ih =>
    obtain ⟨k, ov⟩ := kv
    cases ov with
    | none =>
      simp only [List.filterMap_cons, renderField, Option.map_none']
      exact (List.map_cons _ _ _ ▸ ih.cons k)
    | some v =>
      simp only [List.filterMap_cons, renderField, Option.map_some']
      exact (ih.cons₂ k)

theorem keys_filterMap_nodup (fields : List (String × Option ParamValue))
    (hnd : (fields.map Prod.fst).Nodup) :
    ((fields.filterMap renderField).map Prod.fst).Nodup :=
  hnd.sublist (keys_filterMap_sublist fields)

/-- Lookup of a present field in the serializer image. -/
theorem searchGet_filterMap_of_some (fields : List (String × Option ParamValue))
    (k : String) (v : ParamValue) (hnd : (fields.map Prod.fst).Nodup)
    (hmem : (k, some v) ∈ fields) :
    searchGet (fields.filterMap renderField) k = some (renderParam v) := by
  apply searchGet_of_mem_nodup _ _ _ (keys_filterMap_nodup fields hnd)
  exact List.mem_filterMap.2 ⟨(k, some v), hmem, rfl⟩

/-- Lookup of an absent field in the serializer image. -/
theorem searchGet_filterMap_of_none (fields : List (String × Option ParamValue))
    (k : String) (hnd : (fields.map Prod.fst).Nodup)
    (hmem : (k, none) ∈ fields) :
    searchGet (fields.filterMap renderField) k = none := by
  apply searchGet_of_not_mem
  intro hk
  rcases List.mem_map.1 hk with ⟨kv, hkv, hfst⟩
  rcases List.mem_filterMap.1 hkv with ⟨⟨k1, ov⟩, hov, hrend⟩
  cases ov with
  | none => simp [renderField] at hrend
  | some v =>
    simp only [renderField, Option.map_some'] at hrend
    have hkv_eq : (k1, renderParam v) = kv := Option.some.inj hrend
    have hk1 : k1 = k := by rw [← hkv_eq] at hfst; exact hfst
    rw [hk1] at hov
    exact Option.noConfusion (assoc_snd_eq_of_mem_nodup fields k none (some v) hnd hmem hov)

/-- Folding the not-empty filter of `buildUrl` over pairs with fresh,
pairwise distinct keys keeps exactly the non-empty values in order. -/
theorem foldl_dropEmpty_eq (q : List (String × String)) :
    ∀ acc : List (String × String),
      (∀ kv ∈ q, kv.1 ∉ acc.map Prod.fst) →
      (q.map Prod.fst).Nodup →
      List.foldl (fun acc kv => if kv.2 ≠ "" then searchSet acc kv.1 kv.2 else acc) acc q =
        acc ++ q.filter (fun kv => kv.2 ≠ "") := by
  induction q with
  | nil => intro acc _ _; simp
  | cons kv q ih =>
    intro acc hfresh hnd
    simp only [List.map_cons, List.nodup_cons] at hnd
    by_cases hv : kv.2 = ""
    · simp only [List.foldl_cons, hv, ne_eq, not_true_eq_false, ite_false]
      rw [ih acc (fun kv hkv => hfresh kv (List.mem_cons_of_mem _ hkv)) hnd.2]
      simp [List.filter_cons, hv]
    · have hk : kv.1 ∉ acc.map Prod.fst := hfresh kv (List.mem_cons_self _ _)
      have hstep : searchSet acc kv.1 kv.2 = acc ++ [kv] := by
        rw [searchSet_of_not_mem acc kv.1 kv.2 hk]
      simp only [List.foldl_cons, hv, ne_eq, not_false_eq_true, ite_true]
      rw [hstep, ih (acc ++ [kv])]
      · simp [List.filter_cons, hv]
      · intro kv2 hkv2
        simp only [List.map_append, List.mem_append]
        push_neg
        constructor
        · exact hfresh kv2 (List.mem_cons_of_mem _ hkv2)
        · have : kv2.1 ∈ q.map Prod.fst := List.mem_map_of_mem Prod.fst hkv2
          simp only [List.map_cons, List.map_nil, List.mem_singleton]
          intro hc
          exact hnd.1 (hc ▸ this)
      · exact hnd.2

/-- On a query whose keys are pairwise distinct, the URL builder keeps
exactly the pairs with non-empty values, in order. -/
theorem buildUrlQuery_eq_filter (q : List (String × String))
    (hnd : (q.map Prod.fst).Nodup) :
    buildUrlQuery q = q.filter (fun kv => kv.2 ≠ "") := by
  have := foldl_dropEmpty_eq q [] (by simp) hnd
  simpa [buildUrlQuery] using this

/-- The value a sequence of `set` calls leaves for a name: the value of the
last pair carrying it. -/
def lastVal (h : List (String × String)) (k : String) : Option String :=
  (h.reverse.find? (fun kv => kv.1 = k)).map (fun kv => kv.2)

theorem option_map_or {α β : Type} (f : α → β) (a b : Option α) :
    (a.or b).map f = (a.map f).or (b.map f) := by
  cases a <;> rfl

theorem option_or_assoc {α : Type} (a b c : Option α) :
    (a.or b).or c = a.or (b.or c) := by
  cases a <;> rfl

theorem option_or_none {α : Type} (a : Option α) : a.or none = a := by
  cases a <;> rfl

theorem lastVal_cons (kv : String × String) (h : List (String × String)) (n : String) :
    lastVal (kv :: h) n =
      (lastVal h n).or (if kv.1 = n then some kv.2 else none) := by
  unfold lastVal
  rw [List.reverse_cons, List.find?_append, option_map_or]
  by_cases hk : kv.1 = n
  · simp [List.find?_singleton, hk]
  · simp [List.find?_singleton, hk]

/-- Folding `set` over a list of entries: the last entry with a name wins,
and names the entries never carry keep the value of the accumulator. -/
theorem searchGet_foldl_set (h : List (String × String)) :
    ∀ (acc : List (String × String)) (n : String),
      searchGet (h.foldl (fun a kv => searchSet a kv.1 kv.2) acc) n =
        (lastVal h n).or (searchGet acc n) := by
  induction h with
  | nil =>
    intro acc n
    rfl
  | cons kv h ih =>
    intro acc n
    rw [List.foldl_cons, ih (searchSet acc kv.1 kv.2) n, lastVal_cons,
      option_or_assoc, searchGet_searchSet]
    by_cases hk : kv.1 = n
    · rw [if_pos hk, if_pos hk.symm]
      rfl
    · rw [if_neg hk, if_neg (fun hc => hk hc.symm)]
      rfl

theorem headersGet_mergeOne_some (acc s : List (String × String)) (n : String) :
    headersGet (mergeOne acc (some s)) n =
      (lastVal (headersFromInit s) (asciiLower n)).or (headersGet acc n) := by
  unfold mergeOne headersGet
  have h := searchGet_foldl_set (headersFromInit s) acc (asciiLower n)
  simp only [headersSet]
  exact h

/-- One merge step reads as: value in this source, otherwise accumulated
value. -/
theorem headersGet_mergeOne (acc : List (String × String))
    (src : Option (List (String × String))) (n : String) :
    headersGet (mergeOne acc src) n =
      (headersGet (mergeOne [] src) n).or (headersGet acc n) := by
  cases src with
  | none => rfl
  | some s =>
    rw [headersGet_mergeOne_some, headersGet_mergeOne_some]
    have hnil : headersGet ([] : List (String × String)) n = none := rfl
    rw [hnil, option_or_none]

/-- Merging into an accumulator: later sources take precedence over the
accumulated headers. -/
theorem headersGet_foldl_mergeOne (ts : List (Option (List (String × String)))) :
    ∀ (acc : List (String × String)) (n : String),
      headersGet (ts.foldl mergeOne acc) n =
        (headersGet (ts.foldl mergeOne []) n).or (headersGet acc n) := by
  induction ts with
  | nil =>
    intro acc n
    rfl
  | cons t ts ih =>
    intro acc n
    rw [List.foldl_cons, List.foldl_cons, ih (mergeOne acc t) n,
      ih (mergeOne [] t) n, headersGet_mergeOne acc t n, option_or_assoc]

/-- Splitting the source sequence: any name found among the later sources
wins over the earlier sources. -/
theorem headersGet_mergeHeaders_append (ss ts : List (Option (List (String × String))))
    (n : String) :
    headersGet (mergeHeaders (ss ++ ts)) n =
      (headersGet (mergeHeaders ts) n).or (headersGet (mergeHeaders ss) n) := by
  unfold mergeHeaders
  rw [List.foldl_append]
  exact headersGet_foldl_mergeOne ts (List.foldl mergeOne [] ss) n

/-- Claim C5 (confirmed): on every termination of a call, whatever the
environment did (success, HTTP error, pre-fetch exception, rejection), the
timeout timer is cleared, the listener on the caller token is detached, and
triggering the caller token afterwards has no effect on the composed
signal. -/
theorem c5_cleanup_on_every_exit (t : JSNum) (ext : Option ExtSignal) (env : ExecEnv)
    (rsn : Option JSVal) :
    (execute t ext env).finalSignal.timerPending = false ∧
    (execute t ext env).finalSignal.listenerAttached = false ∧
    fireExtAbort (execute t ext env).finalSignal rsn = (execute t ext env).finalSignal :=
  ⟨rfl, rfl, rfl⟩

/-- Claim C6 (confirmed): a timeout of exactly 0 is kept by `toTimeout` and
starts no timer; negative or non-finite timeouts (NaN, both infinities) fall
back to the 15000 ms default; when the timer is started and fires first, the
cancellation reason is the timeout `DOMException` naming the duration in
milliseconds. -/
theorem c6_timeout_boundaries (q : ℚ) (ext : Option ExtSignal) (t : JSNum)
    (st : SignalState) (hq : q < 0) (hst : st = createAbortSignal t ext)
    (hpend : st.timerPending = true) (hab : st.composedAborted = false) :
    clientTimeout (some (.fin 0)) = .fin 0 ∧
    (createAbortSignal (.fin 0) ext).timerPending = false ∧
    clientTimeout (some .nan) = .fin 15000 ∧
    clientTimeout (some .posInf) = .fin 15000 ∧
    clientTimeout (some .negInf) = .fin 15000 ∧
    clientTimeout (some (.fin q)) = .fin 15000 ∧
    (timerFire st t).composedReason = some (createTimeoutError t) ∧
    createTimeoutError t =
      .domException "TimeoutError" ("Request timed out after " ++ t.render ++ " ms") 0 := by
  refine ⟨by decide, ?_, by decide, by decide, by decide, ?_, ?_, rfl⟩
  · cases ext with
    | none => rfl
    | some s =>
      by_cases hs : s.aborted
      · simp [createAbortSignal, hs]
        decide
      · simp [createAbortSignal, hs]
        decide
  · have hq' : ¬ (0 ≤ q) := not_le.2 hq
    simp [clientTimeout, toTimeout, JSNum.isFinite, JSNum.nonneg, hq']
    rfl
  · rw [timerFire, hpend, hab]
    simp

theorem c6_timeout_boundaries_witness :
    ((-1 : ℚ) < 0 ∧
      (createAbortSignal (.fin 5000) none).timerPending = true ∧
      (createAbortSignal (.fin 5000) none).composedAborted = false) ∧
    clientTimeout (some (.fin (-1))) = .fin 15000 ∧
    (timerFire (createAbortSignal (.fin 5000) none) (.fin 5000)).composedReason =
      some (createTimeoutError (.fin 5000)) :=
  ⟨⟨by norm_num, by decide, by decide⟩,
    (c6_timeout_boundaries (-1) none (.fin 5000) (createAbortSignal (.fin 5000) none)
      (by norm_num) rfl (by decide) (by decide)).2.2.2.2.2.1,
    (c6_timeout_boundaries (-1) none (.fin 5000) (createAbortSignal (.fin 5000) none)
      (by norm_num) rfl (by decide) (by decide)).2.2.2.2.2.2.1⟩

/-- Claim C7 (confirmed): the serializer omits nullish fields entirely,
renders booleans as the literal strings, stringifies all other values with
the default conversion, keeps an explicitly supplied empty string, and its
output is the fixed field order filtered to the present fields, hence
deterministic. -/
theorem c7_serializer_rules :
    (∀ p : ListPrototypesParams,
      serializeListPrototypeParams (some p) = (fieldAssoc p).filterMap renderField) ∧
    (∀ (p : ListPrototypesParams) (k : String), (k, none) ∈ fieldAssoc p →
      searchGet (serializeListPrototypeParams (some p)) k = none) ∧
    (∀ (p : ListPrototypesParams) (k : String) (b : Bool),
      (k, some (ParamValue.pBool b)) ∈ fieldAssoc p →
      searchGet (serializeListPrototypeParams (some p)) k =
        some (if b then "true" else "false")) ∧
    (∀ (p : ListPrototypesParams) (k : String) (v : ParamValue),
      (k, some v) ∈ fieldAssoc p →
      searchGet (serializeListPrototypeParams (some p)) k = some (renderParam v)) ∧
    serializeListPrototypeParams none = [] ∧
    serializeListPrototypeParams (some {}) = [] ∧
    searchGet (serializeListPrototypeParams
      (some { tagNm := some (.pStr "") })) "tagNm" = some "" := by
  refine ⟨serialize_eq_filterMap, ?_, ?_, ?_, rfl, by decide, by decide⟩
  · intro p k hmem
    rw [serialize_eq_filterMap]
    exact searchGet_filterMap_of_none (fieldAssoc p) k (fieldAssoc_keys_nodup p) hmem
  · intro p k b hmem
    rw [serialize_eq_filterMap]
    exact searchGet_filterMap_of_some (fieldAssoc p) k _ (fieldAssoc_keys_nodup p) hmem
  · intro p k v hmem
    rw [serialize_eq_filterMap]
    exact searchGet_filterMap_of_some (fieldAssoc p) k v (fieldAssoc_keys_nodup p) hmem

theorem c7_serializer_rules_witness :
    (("status", some (ParamValue.pBool true)) ∈
        fieldAssoc { status := some (.pBool true), limit := some (.pNum 20) } ∧
      ("userNm", (none : Option ParamValue)) ∈
        fieldAssoc { status := some (.pBool true), limit := some (.pNum 20) }) ∧
    searchGet (serializeListPrototypeParams
      (some { status := some (.pBool true), limit := some (.pNum 20) })) "status" =
        some "true" ∧
    searchGet (serializeListPrototypeParams
      (some { status := some (.pBool true), limit := some (.pNum 20) })) "userNm" = none :=
  ⟨⟨by decide, by decide⟩,
    c7_serializer_rules.2.2.1 _ "status" true (by decide),
    c7_serializer_rules.2.1 _ "userNm" (by decide)⟩

/-- Claim C8 (confirmed): header names are compared case-insensitively and
any name supplied by a later source fully replaces the value from earlier
sources, for every sequence of sources; in particular merging a source with
`A = 1` and then one with `a = 2` yields `2` for `A`. -/
theorem c8_merge_last_write_wins :
    (∀ (ss ts : List (Option (List (String × String)))) (n : String),
      headersGet (mergeHeaders (ss ++ ts)) n =
        (headersGet (mergeHeaders ts) n).or (headersGet (mergeHeaders ss) n)) ∧
    headersGet (mergeHeaders [some [("A", "1")], some [("a", "2")]]) "A" = some "2" :=
  ⟨headersGet_mergeHeaders_append, by decide⟩

/-- On the serializer image, keys stay pairwise distinct. -/
theorem serialize_keys_nodup (p : ListPrototypesParams) :
    ((serializeListPrototypeParams (some p)).map Prod.fst).Nodup := by
  rw [serialize_eq_filterMap]
  exact keys_filterMap_nodup (fieldAssoc p) (fieldAssoc_keys_nodup p)

theorem searchGet_filter_dropped (q : List (String × String)) (k : String)
    (hnd : (q.map Prod.fst).Nodup) (hmem : (k, "") ∈ q) :
    searchGet (q.filter (fun kv => kv.2 ≠ "")) k = none := by
  apply searchGet_of_not_mem
  intro hk
  rcases List.mem_map.1 hk with ⟨kv, hkv, hfst⟩
  have hkq := List.mem_of_mem_filter hkv
  have hval := List.of_mem_filter hkv
  obtain ⟨k1, v1⟩ := kv
  simp only at hfst
  rw [hfst] at hkq
  have : "" = v1 := assoc_snd_eq_of_mem_nodup q k "" v1 hnd hmem hkq
  rw [← this] at hval
  simp at hval

theorem searchGet_filter_kept (q : List (String × String)) (k v : String)
    (hnd : (q.map Prod.fst).Nodup) (hmem : (k, v) ∈ q) (hv : v ≠ "") :
    searchGet (q.filter (fun kv => kv.2 ≠ "")) k = some v := by
  apply searchGet_of_mem_nodup
  · exact hnd.sublist ((List.filter_sublist q).map Prod.fst)
  · exact List.mem_filter.2 ⟨hmem, by simpa using hv⟩

/-- Claim C10 (confirmed): the URL builder drops every query pair whose value
is the empty string and keeps every other pair, so an explicitly empty field
never reaches the request URL while falsy but non-empty values such as 0 are
kept. -/
theorem c10_url_builder_drops_empty :
    (∀ p : ListPrototypesParams,
      buildUrlQuery (serializeListPrototypeParams (some p)) =
        (serializeListPrototypeParams (some p)).filter (fun kv => kv.2 ≠ "")) ∧
    (∀ p : ListPrototypesParams, p.materialNm = some (.pStr "") →
      searchGet (buildUrlQuery (serializeListPrototypeParams (some p))) "materialNm" =
        none) ∧
    (∀ p : ListPrototypesParams, p.limit = some (.pNum 0) →
      searchGet (buildUrlQuery (serializeListPrototypeParams (some p))) "limit" =
        some "0") := by
  refine ⟨?_, ?_, ?_⟩
  · intro p
    exact buildUrlQuery_eq_filter _ (serialize_keys_nodup p)
  · intro p hm
    rw [buildUrlQuery_eq_filter _ (serialize_keys_nodup p)]
    apply searchGet_filter_dropped _ _ (serialize_keys_nodup p)
    rw [serialize_eq_filterMap]
    refine List.mem_filterMap.2 ⟨("materialNm", some (.pStr "")), ?_, rfl⟩
    simp [fieldAssoc, hm]
  · intro p hl
    rw [buildUrlQuery_eq_filter _ (serialize_keys_nodup p)]
    apply searchGet_filter_kept _ _ _ (serialize_keys_nodup p) _ (by decide)
    rw [serialize_eq_filterMap]
    refine List.mem_filterMap.2 ⟨("limit", some (.pNum 0)), ?_, rfl⟩
    simp [fieldAssoc, hl]

theorem c10_url_builder_drops_empty_witness :
    (({ materialNm := some (.pStr ""), limit := some (.pNum 0) } :
        ListPrototypesParams).materialNm = some (.pStr "") ∧
      ({ materialNm := some (.pStr ""), limit := some (.pNum 0) } :
        ListPrototypesParams).limit = some (.pNum 0)) ∧
    searchGet (buildUrlQuery (serializeListPrototypeParams
      (some { materialNm := some (.pStr ""), limit := some (.pNum 0) }))) "materialNm" =
        none ∧
    searchGet (buildUrlQuery (serializeListPrototypeParams
      (some { materialNm := some (.pStr ""), limit := some (.pNum 0) }))) "limit" =
        some "0" :=
  ⟨⟨rfl, rfl⟩,
    c10_url_builder_drops_empty.2.1 _ rfl,
    c10_url_builder_drops_empty.2.2 _ rfl⟩

/-- Claim C9 (confirmed): the headers snapshot of a constructed error lives
at a fresh object identity distinct from the caller supplied map, mutating
the source map after construction leaves the snapshot unchanged, and an
absent body defaults to null. -/
theorem c9_error_snapshot (h : ObjHeap) (o : ApiErrorOptionsH) (srcOid : Nat)
    (newEntries : List (String × String)) (hsrc : o.headersOid = some srcOid)
    (hlt : srcOid < h.length) :
    (mkApiErrorH h o).1.headersOid ≠ srcOid ∧
    heapRead (heapWrite (mkApiErrorH h o).2 srcOid newEntries)
      (mkApiErrorH h o).1.headersOid = heapRead h srcOid ∧
    (o.body = none → (mkApiErrorH h o).1.body = .null) := by
  have h1 : (mkApiErrorH h o).1.headersOid = h.length := rfl
  have h2 : (mkApiErrorH h o).2 = h ++ [heapRead h srcOid] := by
    simp [mkApiErrorH, heapAlloc, hsrc]
  refine ⟨?_, ?_, ?_⟩
  · rw [h1]
    omega
  · rw [h1, h2]
    unfold heapRead heapWrite
    rw [List.getD_eq_getElem?_getD, List.getD_eq_getElem?_getD,
      List.getElem?_set_ne (by omega : srcOid ≠ h.length),
      List.getElem?_concat_length]
    have hget : (h[srcOid]?).getD [] = h[srcOid] := by
      rw [List.getElem?_eq_getElem hlt]
      rfl
    rw [List.getElem?_eq_getElem hlt]
    rfl
  · intro hb
    simp [mkApiErrorH, jsCoalesce, hb]

theorem c9_error_snapshot_witness :
    (({ message := "Request failed", req := ⟨"GET", "https://example.test/r"⟩,
        status := 404, statusText := "Not Found",
        headersOid := some 0 } : ApiErrorOptionsH).headersOid = some 0 ∧
      0 < ([[("accept", "application/json")]] : ObjHeap).length) ∧
    (mkApiErrorH [[("accept", "application/json")]]
      { message := "Request failed", req := ⟨"GET", "https://example.test/r"⟩,
        status := 404, statusText := "Not Found",
        headersOid := some 0 }).1.headersOid ≠ 0 ∧
    heapRead (heapWrite (mkApiErrorH [[("accept", "application/json")]]
      { message := "Request failed", req := ⟨"GET", "https://example.test/r"⟩,
        status := 404, statusText := "Not Found",
        headersOid := some 0 }).2 0 [("accept", "text/plain")])
      (mkApiErrorH [[("accept", "application/json")]]
      { message := "Request failed", req := ⟨"GET", "https://example.test/r"⟩,
        status := 404, statusText := "Not Found",
        headersOid := some 0 }).1.headersOid = heapRead [[("accept", "application/json")]] 0 ∧
    (mkApiErrorH [[("accept", "application/json")]]
      { message := "Request failed", req := ⟨"GET", "https://example.test/r"⟩,
        status := 404, statusText := "Not Found",
        headersOid := some 0 }).1.body = .null :=
  ⟨⟨rfl, by decide⟩,
    (c9_error_snapshot _ _ 0 [("accept", "text/plain")] rfl (by decide)).1,
    (c9_error_snapshot _ _ 0 [("accept", "text/plain")] rfl (by decide)).2.1,
    (c9_error_snapshot _ _ 0 [("accept", "text/plain")] rfl (by decide)).2.2 rfl⟩

/-- Claim C1 (counterexample): with a pre-cancelled caller token, under a
non-throwing logger, the fetch function is invoked all the same — the claim
that the transport function is never invoked is false. The repository test
named `handles already aborted signal` asserts exactly this invocation. -/
theorem c1_counterexample :
    (execute (.fin 15000) (some { aborted := true, reason := some (.errObj "test abort" 1) })
      { preFetchThrow := none,
        fetchOutcome := .reject (.js (.domException "AbortError"
          "The operation was aborted." 2)) }).fetchInvoked = true := rfl

/-- Claim C1 (corrected): with a pre-cancelled caller token, the composed
signal is immediately cancelled with the token reason, the transport function
is still invoked (with the already aborted signal, so no network round trip
succeeds), and the call rejects with the token original reason object
whenever fetch honours the aborted signal by rejecting with an abort-class
error or with the signal reason itself. -/
theorem c1_precancelled_token (t : JSNum) (s : ExtSignal) (env : ExecEnv) (rsn v : JSVal)
    (hab : s.aborted = true) (hrsn : s.reason = some rsn) (hnn : isNullish rsn = false)
    (hpre : env.preFetchThrow = none) (hfetch : env.fetchOutcome = .reject (.js v))
    (hv : isAbortError v = true ∨ v = rsn) :
    (createAbortSignal t (some s)).composedAborted = true ∧
    (createAbortSignal t (some s)).composedReason = some rsn ∧
    (execute t (some s) env).fetchInvoked = true ∧
    (execute t (some s) env).outcome = .error (.js rsn) := by
  refine ⟨by simp [createAbortSignal, hab], by simp [createAbortSignal, hab, hrsn], ?_, ?_⟩
  · simp [execute, hpre, hfetch]
  · have hout : (execute t (some s) env).outcome =
        .error (catchClause (some s) (.js v)) := by
      simp [execute, hpre, hfetch]
    rw [hout]
    rcases hv with hvab | hveq
    · simp [catchClause, hvab, hab, jsCoalesce, hrsn, hnn]
    · rw [hveq]
      simp only [catchClause]
      split
      · simp [jsCoalesce, hrsn, hnn]
      · rfl

theorem c1_precancelled_token_witness :
    (({ aborted := true, reason := some (.errObj "test abort" 1) } : ExtSignal).aborted =
        true ∧
      isNullish (.errObj "test abort" 1) = false) ∧
    (execute (.fin 15000) (some { aborted := true, reason := some (.errObj "test abort" 1) })
      { preFetchThrow := none,
        fetchOutcome := .reject (.js (.domException "AbortError"
          "The operation was aborted." 2)) }).outcome =
      .error (.js (.errObj "test abort" 1)) :=
  ⟨⟨rfl, rfl⟩,
    (c1_precancelled_token (.fin 15000) _ _ (.errObj "test abort" 1)
      (.domException "AbortError" "The operation was aborted." 2)
      rfl rfl rfl rfl rfl (Or.inl rfl)).2.2.2⟩

/-- Claim C4 (confirmed): when the transport rejects with an abort-class
error while the caller token is cancelled, the call re-raises the token
original reason; any other abort error (the timeout reason included, whose
`DOMException` is named `TimeoutError` and is not abort-class) and any other
transport exception propagate unchanged and unwrapped. -/
theorem c4_transport_rejections (t : JSNum) (ext : Option ExtSignal) (env : ExecEnv)
    (v : JSVal) (hpre : env.preFetchThrow = none)
    (hfetch : env.fetchOutcome = .reject (.js v)) :
    (∀ s rsn, ext = some s → s.aborted = true → s.reason = some rsn →
      isNullish rsn = false → isAbortError v = true →
      (execute t ext env).outcome = .error (.js rsn)) ∧
    (isAbortError v = false → (execute t ext env).outcome = .error (.js v)) ∧
    ((∀ s, ext = some s → s.aborted = false) →
      (execute t ext env).outcome = .error (.js v)) ∧
    (∀ th oid, v = .domException "TimeoutError" th oid →
      (execute t ext env).outcome = .error (.js v)) := by
  have hout : (execute t ext env).outcome = .error (catchClause ext (.js v)) := by
    simp [execute, hpre, hfetch]
  refine ⟨?_, ?_, ?_, ?_⟩
  · intro s rsn hs habt hrsn hnn hvab
    rw [hout, hs]
    simp [catchClause, hvab, habt, jsCoalesce, hrsn, hnn]
  · intro hvab
    rw [hout]
    cases ext with
    | none => simp [catchClause]
    | some s => simp [catchClause, hvab]
  · intro hnab
    rw [hout]
    cases ext with
    | none => simp [catchClause]
    | some s => simp [catchClause, hnab s rfl]
  · intro th oid hveq
    rw [hout]
    have hvab : isAbortError v = false := by
      rw [hveq]
      rfl
    cases ext with
    | none => simp [catchClause]
    | some s => simp [catchClause, hvab]

theorem c4_transport_rejections_witness :
    (isAbortError (.errObj "connection refused" 7) = false ∧
      isAbortError (.domException "TimeoutError"
        "Request timed out after 15000 ms" 0) = false) ∧
    (execute (.fin 15000) none
      { preFetchThrow := none,
        fetchOutcome := .reject (.js (.errObj "connection refused" 7)) }).outcome =
      .error (.js (.errObj "connection refused" 7)) ∧
    (execute (.fin 15000) none
      { preFetchThrow := none,
        fetchOutcome := .reject (.js (.domException "TimeoutError"
          "Request timed out after 15000 ms" 0)) }).outcome =
      .error (.js (.domException "TimeoutError" "Request timed out after 15000 ms" 0)) :=
  ⟨⟨rfl, rfl⟩,
    (c4_transport_rejections (.fin 15000) none _ _ rfl rfl).2.1 rfl,
    (c4_transport_rejections (.fin 15000) none _ _ rfl rfl).2.1 rfl⟩

example :
    buildErrorBody
      { status := 500, statusText := "Internal Server Error"
        url := "https://api.test/prototype/list", headers := []
        body := { jsonB := .error (.errObj "bad json" 11)
                  textB := .error (.errObj "read fail" 12) }
        strict := false, bodyUsed := false } =
      .objParseError (.jsStr "read fail") := by decide

example :
    buildErrorBody
      { status := 502, statusText := "Bad Gateway"
        url := "https://api.test/prototype/list"
        headers := [("content-type", "text/plain")]
        body := { jsonB := .ok (.obj 13)
                  textB := .error (.errObj "text broken" 14) }
        strict := false, bodyUsed := false } = .obj 13 := by decide

example :
    buildErrorBody
      { status := 500, statusText := "Internal Server Error"
        url := "https://api.test/prototype/list"
        headers := [("content-type", "application/json; charset=utf-8")]
        body := { jsonB := .error (.errObj "bad json" 15)
                  textB := .ok "fallback text body" }
        strict := true, bodyUsed := false } = .jsStr "fallback text body" := by decide

example :
    (buildError
      { status := 500, statusText := "Internal Server Error"
        url := "https://api.test/prototype/list", headers := []
        body := { jsonB := .error (.errObj "oops" 16), textB := .ok "<html>oops</html>" }
        strict := true, bodyUsed := false } "GET").body =
      .jsStr "<html>oops</html>" := by decide

/-- A 2xx response whose `json()` fails with a syntax error and whose
`text()` also fails, after the mock-response style the code supports. -/
def c2resp : Resp :=
  { status := 200, statusText := "OK", url := "https://api.test/prototype/list"
    headers := [("content-type", "application/json")]
    body := { jsonB := .error (.errObj "Unexpected token" 3)
              textB := .error (.errObj "read fail" 4) }
    strict := false, bodyUsed := false }

/-- Claim C2 (counterexample): on a 2xx response where JSON parsing fails and
reading the text also fails, the call rejects with the raw text-read failure,
not with a decode `ApiError` carrying an empty body — the recovery read is
not guarded. -/
theorem c2_counterexample :
    listPrototypesRun (.fin 15000) none
      { preFetchThrow := none, fetchOutcome := .resolve c2resp } =
      .error (.js (.errObj "read fail" 4)) ∧
    isApiThrow (listPrototypesRun (.fin 15000) none
      { preFetchThrow := none, fetchOutcome := .resolve c2resp }) = false := by
  decide

/-- Claim C2 (corrected): a 2xx response with unparsable JSON makes
`listPrototypes` throw the uniform `ApiError` whose message names the
operation, whose status, status text and headers reflect the original 2xx
response and whose body is the recovered raw text — whenever the text
recovery read succeeds; when the recovery read fails, that failure
propagates in place of the decode error (and on a strict real response whose
body was consumed by the failed JSON parse, the recovery read itself fails
with the consumed-body error). -/
theorem c2_decode_failure (tm : JSNum) (ext : Option ExtSignal) (env : ExecEnv)
    (r : Resp) (je : JSVal)
    (hpre : env.preFetchThrow = none) (hfetch : env.fetchOutcome = .resolve r)
    (hok : respOk r = true) (hfresh : r.bodyUsed = false)
    (hjson : r.body.jsonB = .error je) :
    (∀ txt, r.body.textB = .ok txt → r.strict = false →
      listPrototypesRun tm ext env =
        .error (.api (mkApiError
          { message := "Failed to parse listPrototype response as JSON"
            req := { method := "GET", url := r.url }
            status := r.status
            statusText := r.statusText
            headers := some (headersToPlainObject r.headers)
            body := some (.jsStr txt)
            cause := some je })) ∧
      isApiThrow (listPrototypesRun tm ext env) = true) ∧
    (∀ te, r.body.textB = .error te → r.strict = false →
      listPrototypesRun tm ext env = .error (.js te)) ∧
    (r.strict = true →
      listPrototypesRun tm ext env = .error (.js bodyConsumedError)) := by
  have hrun : listPrototypesRun tm ext env = parseJsonRun r "GET" "listPrototype" := by
    simp [listPrototypesRun, execute, hpre, hfetch, hok]
  refine ⟨?_, ?_, ?_⟩
  · intro txt htxt hstrict
    rw [hrun]
    constructor
    · simp [parseJsonRun, readJson, readText, hfresh, hjson, htxt, hstrict]
    · simp [parseJsonRun, readJson, readText, hfresh, hjson, htxt, hstrict, isApiThrow]
  · intro te hte hstrict
    rw [hrun]
    simp [parseJsonRun, readJson, readText, hfresh, hjson, hte, hstrict]
  · intro hstrict
    rw [hrun]
    simp [parseJsonRun, readJson, readText, hfresh, hjson, hstrict]

theorem c2_decode_failure_witness :
    (respOk c2resp = true ∧ c2resp.bodyUsed = false ∧
      c2resp.body.jsonB = .error (.errObj "Unexpected token" 3) ∧
      c2resp.body.textB = .error (.errObj "read fail" 4) ∧ c2resp.strict = false) ∧
    listPrototypesRun (.fin 15000) none
      { preFetchThrow := none, fetchOutcome := .resolve c2resp } =
      .error (.js (.errObj "read fail" 4)) :=
  ⟨⟨by decide, rfl, rfl, rfl, rfl⟩,
    (c2_decode_failure (.fin 15000) none _ c2resp (.errObj "Unexpected token" 3)
      rfl rfl (by decide) rfl rfl).2.1 (.errObj "read fail" 4) rfl rfl⟩

/-- A non-2xx JSON-content-type response on which both the JSON parse of the
clone and the text read fail, with distinct diagnostic messages. -/
def c3resp : Resp :=
  { status := 500, statusText := "Internal Server Error"
    url := "https://api.test/prototype/list"
    headers := [("content-type", "application/json")]
    body := { jsonB := .error (.errObj "bad json" 5)
              textB := .error (.errObj "read fail" 6) }
    strict := false, bodyUsed := false }

/-- Claim C3 (counterexample): on a JSON content type where both the clone
JSON parse and the text read fail, the code falls back to the record carrying
the text-read failure message without attempting the JSON last resort, while
the claimed algorithm would attempt JSON again and carry the message of that
last failure; the two bodies differ. -/
theorem c3_counterexample :
    buildErrorBody c3resp = .objParseError (.jsStr "read fail") ∧
    buildErrorBodySpec c3resp = .objParseError (.jsStr "bad json") ∧
    (buildError c3resp "GET").body = .objParseError (.jsStr "read fail") ∧
    buildErrorBody c3resp ≠ buildErrorBodySpec c3resp := by
  decide

/-- The body `buildError` extracts, written as one expression over the raw
first-read behaviours of the response. -/
def buildErrorBodyAlg (r : Resp) : JSVal :=
  if strIncludes (contentTypeOf r) "application/json" then
    match r.body.jsonB with
    | .ok v => v
    | .error _ =>
      match r.body.textB with
      | .ok t => .jsStr t
      | .error te => .objParseError (errMessage te)
  else
    match r.body.textB with
    | .ok t => .jsStr t
    | .error te =>
      if r.strict then .objParseError (errMessage te)
      else
        match r.body.jsonB with
        | .ok v => v
        | .error _ => .objParseError (errMessage te)

/-- On a fresh response, `buildErrorBody` computes exactly the algorithm over
the raw behaviours: in the JSON branch the text fallback always reads the raw
text behaviour — the clone protects the original body, so no consumed-body
failure occurs — and in the text branch the JSON last resort reaches the raw
JSON behaviour only on duck-typed responses, a strict body being consumed by
the failed text read. -/
theorem buildErrorBody_eq_alg (r : Resp) (hfresh : r.bodyUsed = false) :
    buildErrorBody r = buildErrorBodyAlg r := by
  unfold buildErrorBody buildErrorBodyAlg
  cases hct : strIncludes (contentTypeOf r) "application/json" with
  | true =>
    simp only [if_pos rfl, cloneResp, readJson, readText, hfresh]
    cases hj : r.body.jsonB with
    | ok v => simp
    | error e =>
      cases htx : r.body.textB with
      | ok t => simp
      | error te => simp
  | false =>
    simp only [Bool.false_eq_true, if_false, readText, readJson, hfresh]
    cases htx : r.body.textB with
    | ok t => simp
    | error te =>
      cases hstrict : r.strict with
      | true => simp [hstrict]
      | false =>
        cases hj : r.body.jsonB with
        | ok v => simp [hstrict, hj]
        | error e => simp [hstrict, hj]

/-- Claim C3 (corrected): every non-2xx response is converted to the single
uniform `ApiError`; the body is extracted best-effort and the extraction is
total, with no consumed-body failure thanks to the clone; the priority order
is: under a JSON content type, JSON on a clone, then text, then the record
carrying the text-read failure message (no JSON last resort in this branch);
otherwise text first, then JSON on the original as a last resort (effective
on duck-typed responses), then the record carrying the text-read failure
message. -/
theorem c3_error_builder (tm : JSNum) (ext : Option ExtSignal) (env : ExecEnv)
    (r : Resp) (method : String)
    (hfresh : r.bodyUsed = false) (hpre : env.preFetchThrow = none)
    (hfetch : env.fetchOutcome = .resolve r) (hnok : respOk r = false) :
    (execute tm ext env).outcome = .error (.api (buildError r "GET")) ∧
    (buildError r method).name = "ProtoPediaApiError" ∧
    (buildError r method).message = "API request failed" ∧
    (buildError r method).status = r.status ∧
    (buildError r method).statusText = r.statusText ∧
    (buildError r method).headers = headersToPlainObject r.headers ∧
    (buildError r method).req = { method := method, url := r.url } ∧
    (buildError r method).body = jsCoalesce (some (buildErrorBodyAlg r)) .null := by
  refine ⟨?_, rfl, rfl, rfl, rfl, rfl, rfl, ?_⟩
  · simp [execute, hpre, hfetch, hnok, catchClause]
  · have hb : (buildError r method).body = jsCoalesce (some (buildErrorBody r)) .null := rfl
    rw [hb, buildErrorBody_eq_alg r hfresh]

theorem c3_error_builder_witness :
    (c3resp.bodyUsed = false ∧ respOk c3resp = false) ∧
    (execute (.fin 15000) none
      { preFetchThrow := none, fetchOutcome := .resolve c3resp }).outcome =
      .error (.api (buildError c3resp "GET")) ∧
    (buildError c3resp "GET").body = jsCoalesce (some (buildErrorBodyAlg c3resp)) .null :=
  ⟨⟨rfl, by decide⟩,
    (c3_error_builder (.fin 15000) none
      { preFetchThrow := none, fetchOutcome := .resolve c3resp } c3resp "GET"
      rfl rfl rfl (by decide)).1,
    (c3_error_builder (.fin 15000) none
      { preFetchThrow := none, fetchOutcome := .resolve c3resp } c3resp "GET"
      rfl rfl rfl (by decide)).2.2.2.2.2.2.2⟩

end PPClient
